import Mathlib

/-!
Verification of the JAX PRNG core (`jax/_src/prng.py`).

This file gives a shallow embedding of the PRNG core of the repository and
proves (or refutes) the specification claims about it.  Conventions of the
embedding:

* 32-bit unsigned machine words are modelled as `Nat` together with explicit
  reduction `% 2^32` exactly where the Python/XLA `uint32` arithmetic wraps
  (addition and left shift wrap; bitwise xor/or/and and logical right shift of
  in-range values never leave the range, so they carry no reduction).
* numpy/JAX arrays of `uint32` are modelled as a flat row-major data list
  together with a shape (`NdArray` below).  All arrays relevant to the claims
  have dtype `uint32`, so the dtype is fixed by the model and dtype checks on
  values that are uint32 by construction are omitted.
* Python functions that raise (`TypeError`, failing `assert`) are modelled
  with `Except String` / `Option` results.
* `jax.vmap` and the broadcasting combinators are modelled on nested arrays
  (`Tensor` below); a vectorized function that is applied to data of the
  wrong structure returns `none`, modelling the corresponding Python error.
-/

/-! ## uint32 primitives -/

/-- The constant `2^32`, the modulus of `uint32` arithmetic. -/
def two32 : Nat := 4294967296

/-- Wrapping `uint32` addition. -/
def add32 (a b : Nat) : Nat := (a + b) % two32

/-- Bitwise xor (no reduction needed: xor of words below `2^32` stays below). -/
def xor32 (a b : Nat) : Nat := a ^^^ b

/-- Model of `_rotate_left` from `_make_rotate_left(np.uint32)` in the source:
`lax.shift_left(x, d) | lax.shift_right_logical(x, nbits - d)` on `uint32`,
where the left shift wraps modulo `2^32`. -/
def rotate_left (x d : Nat) : Nat := ((x <<< d) % two32) ||| (x >>> (32 - d))

/-- Model of `apply_round` from the source: one ARX mix step
`v0 = v0 + v1; v1 = rotate_left(v1, rot); v1 = v0 XOR v1`. -/
def apply_round (v : Nat × Nat) (rot : Nat) : Nat × Nat :=
  let v0 := add32 v.1 v.2
  let v1 := xor32 v0 (rotate_left v.2 rot)
  (v0, v1)

/-- Model of `rotate_list` from the source: `xs[1:] + xs[:1]`. -/
def rotate_list (xs : List α) : List α := xs.drop 1 ++ xs.take 1

/-- The two fixed rotation-constant vectors of Threefry-2x32. -/
def rotations : List (List Nat) := [[13, 15, 26, 6], [17, 29, 16, 24]]

/-- The 3-word key schedule `[key1, key2, key1 XOR key2 XOR 0x1BD11BDA]`. -/
def ks_of (key1 key2 : Nat) : List Nat :=
  [key1, key2, xor32 (xor32 key1 key2) 0x1BD11BDA]

/-- Model of `rolled_loop_step` from the source: apply one full round (the four mix
steps of the current head rotation vector), then inject `ks[0]` into `x0` and
`ks[1] + (i+1)` (taken as `uint32`) into `x1`, and rotate both the key
schedule and the rotation-vector list. -/
def rolled_loop_step (i : Nat) (state : (Nat × Nat) × List Nat × List (List Nat)) :
    (Nat × Nat) × List Nat × List (List Nat) :=
  let x := ((state.2.2).getD 0 []).foldl apply_round state.1
  let ks := state.2.1
  ((add32 x.1 (ks.getD 0 0), add32 (add32 x.2 (ks.getD 1 0)) ((i + 1) % two32)),
   rotate_list ks, rotate_list state.2.2)

/-- Model of `lax.fori_loop lo hi body init`: iterate `body` over `i = lo, …, hi-1`. -/
def fori_loop (lo hi : Nat) (body : Nat → α → α) (init : α) : α :=
  (List.range' lo (hi - lo)).foldl (fun s i => body i s) init

/-- Model of `_threefry2x32_lowering` from the source, on scalar words: the Threefry
2x32 hash of the block `(x1, x2)` under key `(key1, key2)`, computed either
with the rolled `fori_loop` strategy or with the fully unrolled five-round
expansion, exactly mirroring both branches of the Python function. -/
def _threefry2x32_lowering (use_rolled_loops : Bool) (key1 key2 x1 x2 : Nat) :
    Nat × Nat :=
  let ks := ks_of key1 key2
  let x : Nat × Nat := (add32 x1 (ks.getD 0 0), add32 x2 (ks.getD 1 0))
  if use_rolled_loops then
    (fori_loop 0 5 rolled_loop_step (x, rotate_list ks, rotations)).1
  else
    let x := (rotations.getD 0 []).foldl apply_round x
    let x := (add32 x.1 (ks.getD 1 0), add32 (add32 x.2 (ks.getD 2 0)) 1)
    let x := (rotations.getD 1 []).foldl apply_round x
    let x := (add32 x.1 (ks.getD 2 0), add32 (add32 x.2 (ks.getD 0 0)) 2)
    let x := (rotations.getD 0 []).foldl apply_round x
    let x := (add32 x.1 (ks.getD 0 0), add32 (add32 x.2 (ks.getD 1 0)) 3)
    let x := (rotations.getD 1 []).foldl apply_round x
    let x := (add32 x.1 (ks.getD 1 0), add32 (add32 x.2 (ks.getD 2 0)) 4)
    let x := (rotations.getD 0 []).foldl apply_round x
    (add32 x.1 (ks.getD 2 0), add32 (add32 x.2 (ks.getD 0 0)) 5)

/-- Threefry evaluation with a parameterized post-round key-schedule
injection: after round `r` (1-based, rotation vector `rotations[(r-1) % 2]`),
inject `ks[(start + r - 1) % 3]` into `x0` and `ks[(start + r) % 3] + r` into
`x1`.  `start = 0` is the injection order claimed by the spec (`x0` receives
`ks0, ks1, ks2, ks0, ks1`); `start = 1` is the order the code implements
(`x0` receives `ks1, ks2, ks0, ks1, ks2`). -/
def threefry2x32_schedule (start key1 key2 x1 x2 : Nat) : Nat × Nat :=
  let ks := ks_of key1 key2
  let x0 : Nat × Nat := (add32 x1 (ks.getD 0 0), add32 x2 (ks.getD 1 0))
  (List.range' 1 5).foldl
    (fun x r =>
      let x := (rotations.getD ((r - 1) % 2) []).foldl apply_round x
      (add32 x.1 (ks.getD ((start + (r - 1)) % 3) 0),
       add32 (add32 x.2 (ks.getD ((start + r) % 3) 0)) r))
    x0

/-- C3: the rolled (`fori_loop`-based) and the fully unrolled evaluation
strategies of `_threefry2x32_lowering` agree on every input quadruple
`(key1, key2, x1, x2)` (in particular on every quadruple of `uint32` words). -/
theorem threefry_rolled_unrolled_equiv (key1 key2 x1 x2 : Nat) :
    _threefry2x32_lowering true key1 key2 x1 x2 =
      _threefry2x32_lowering false key1 key2 x1 x2 := by
  rfl

/-- C1 (counterexample): the spec's claimed injection order — `x0` receiving
`ks0, ks1, ks2, ks0, ks1` after the five rounds, i.e. `threefry2x32_schedule`
with `start = 0` — does not match the unrolled code at the concrete input
`key = (0, 1)`, `block = (0, 0)`. -/
theorem threefry_injection_order_claim_false :
    _threefry2x32_lowering false 0 1 0 0 ≠ threefry2x32_schedule 0 0 1 0 0 := by
  decide

/-- C1 (amended): after each full round `r` (1-based), the unrolled evaluation
injects `ks[r % 3]` into `x0` — the order `ks1, ks2, ks0, ks1, ks2` across the
five rounds, continuing the cycle after the initial injection consumed
`ks0, ks1` — and injects the following schedule word `ks[(r+1) % 3]` plus the
1-based round number into `x1`; this holds for every input quadruple. -/
theorem threefry_injection_order (key1 key2 x1 x2 : Nat) :
    _threefry2x32_lowering false key1 key2 x1 x2 =
      threefry2x32_schedule 1 key1 key2 x1 x2 := by
  rfl

/-! ## Array model and the counter-mode hash `threefry_2x32` -/

/-- A numpy/JAX array of `uint32` words: a shape and the flat row-major data.
The invariant `data.length = shape product` is carried as a hypothesis where
theorems need it. -/
structure NdArray where
  shape : List Nat
  data : List Nat
deriving DecidableEq, Repr

/-- Product of a shape's dimensions (`np.prod` / `count.size`). -/
def list_prod (l : List Nat) : Nat := l.foldl Nat.mul 1

/-- Model of `lax.iota(np.uint32, m)`: the words `0, 1, …, m-1`. -/
def iota (m : Nat) : List Nat := List.range m

/-- The scalar Threefry hash used by the `threefry2x32_p` primitive.  The
generic lowering registered for the primitive is the unrolled form (the
rolled form is proven extensionally equal in `threefry_rolled_unrolled_equiv`). -/
def threefry2x32 (key1 key2 x1 x2 : Nat) : Nat × Nat :=
  _threefry2x32_lowering false key1 key2 x1 x2

/-- Model of `threefry_2x32(keypair, count)` from the source: flatten `count`; when its
size is odd, append one zero word; split the flat list into two halves; hash
the half-pairs elementwise with the scalar keys broadcast; concatenate the two
output halves; drop the final word again when the size was odd; reshape to
`count`'s shape. -/
def threefry_2x32 (keypair : Nat × Nat) (count : NdArray) : NdArray :=
  let size := list_prod count.shape
  let odd_size := size % 2
  let flat := if odd_size = 1 then count.data ++ [0] else count.data
  let m := flat.length / 2
  let ys := ((flat.take m).zip (flat.drop m)).map
    (fun p => threefry2x32 keypair.1 keypair.2 p.1 p.2)
  let out := ys.map Prod.fst ++ ys.map Prod.snd
  ⟨count.shape, if odd_size = 1 then out.dropLast else out⟩

/-- The two scalar key words of a raw `(2,)`-shaped threefry key array. -/
def key_pair (key : NdArray) : Nat × Nat := (key.data.getD 0 0, key.data.getD 1 0)

/-- Model of `threefry_split(key, num)` from the source: hash the counter words
`0 … 2*num - 1` keyed by `key` and reshape the `2*num` output words to
`(num, 2)`. -/
def threefry_split (key : NdArray) (num : Nat) : NdArray :=
  ⟨[num, 2], (threefry_2x32 (key_pair key) ⟨[num * 2], iota (num * 2)⟩).data⟩

/-- Model of `threefry_seed(seed)` from the source: requires a scalar integer seed and
returns the raw key `[high, low]` with `high = seed >> 32` (logical shift) and
`low = seed AND 0xFFFFFFFF`, both cast to `uint32`.  A non-scalar seed raises
`TypeError`, modelled as `none`. -/
def threefry_seed (seed : NdArray) : Option NdArray :=
  if seed.shape = [] then
    let s := seed.data.getD 0 0
    some ⟨[2], [(s >>> 32) % two32, s &&& 0xFFFFFFFF]⟩
  else none

/-- Model of `_threefry_fold_in(key, data)` from the source:
`threefry_2x32(key, threefry_seed(data))`. -/
def _threefry_fold_in (key : NdArray) (data : NdArray) : Option NdArray :=
  (threefry_seed data).map (fun ctr => threefry_2x32 (key_pair key) ctr)

/-- Model of `threefry_fold_in(key, data)` from the source: assert that `data` is a
scalar (modelled as `none` on failure), convert it to `uint32`
(`jnp.uint32(data)`, i.e. reduction mod `2^32`), and fold it in. -/
def threefry_fold_in (key : NdArray) (data : NdArray) : Option NdArray :=
  if data.shape = [] then
    _threefry_fold_in key ⟨data.shape, data.data.map (fun v => v % two32)⟩
  else none

/-! Length and shape facts about `threefry_2x32`, shared by several claims. -/

/-- The output shape of `threefry_2x32` is the input `count` shape. -/
theorem threefry_2x32_shape (kp : Nat × Nat) (c : NdArray) :
    (threefry_2x32 kp c).shape = c.shape := rfl

theorem threefry_2x32_data_length (kp : Nat × Nat) (c : NdArray)
    (h : c.data.length = list_prod c.shape) :
    (threefry_2x32 kp c).data.length = list_prod c.shape := by
  rcases Nat.mod_two_eq_zero_or_one (list_prod c.shape) with he | ho
  · simp only [threefry_2x32, he, if_neg (by omega : ¬(0 = 1)),
      List.length_append, List.length_map, List.length_zip,
      List.length_take, List.length_drop, h]
    omega
  · simp only [threefry_2x32, ho, eq_self_iff_true, ite_true,
      List.length_dropLast, List.length_append, List.length_map,
      List.length_zip, List.length_take, List.length_drop,
      List.length_singleton, h]
    omega

/-- On an even-sized input, the output data of `threefry_2x32` is the
concatenation of the per-pair first outputs with the per-pair second
outputs, the pairs being `(flat[i], flat[size/2 + i])`. -/
theorem threefry_2x32_even_data (kp : Nat × Nat) (c : NdArray)
    (he : list_prod c.shape % 2 = 0) :
    (threefry_2x32 kp c).data =
      (let m := c.data.length / 2
       let ys := ((c.data.take m).zip (c.data.drop m)).map
         (fun p => threefry2x32 kp.1 kp.2 p.1 p.2)
       ys.map Prod.fst ++ ys.map Prod.snd) := by
  unfold threefry_2x32
  simp only [he, if_neg (by omega : ¬(0 = 1))]

theorem list_prod_singleton (m : Nat) : list_prod [m] = m := by
  show Nat.mul 1 m = m
  exact Nat.one_mul m

theorem dropLast_eq_take_of_length (l : List α) (n : Nat) (h : l.length = n + 1) :
    l.dropLast = l.take n := by
  rw [List.dropLast_eq_take, h]
  simp

/-- C10: for every key pair and every counter array (its data matching its
shape), `threefry_2x32` returns an array with exactly the counter's shape and
with one output word per counter word; and on an odd-sized counter array it
agrees with the evaluation on the zero-padded even-sized array on the first
`count.size` output words (the padded evaluation's last word is dropped). -/
theorem threefry_2x32_shape_and_odd (kp : Nat × Nat) (c : NdArray)
    (h : c.data.length = list_prod c.shape) :
    (threefry_2x32 kp c).shape = c.shape ∧
    (threefry_2x32 kp c).data.length = list_prod c.shape ∧
    (list_prod c.shape % 2 = 1 →
      (threefry_2x32 kp c).data =
        ((threefry_2x32 kp ⟨[list_prod c.shape + 1], c.data ++ [0]⟩).data).take
          (list_prod c.shape)) := by
  refine ⟨rfl, threefry_2x32_data_length kp c h, fun ho => ?_⟩
  have he' : list_prod (NdArray.mk [list_prod c.shape + 1] (c.data ++ [0])).shape % 2 = 0 := by
    simp only [list_prod_singleton]
    omega
  rw [threefry_2x32_even_data kp _ he']
  simp only [threefry_2x32, ho, eq_self_iff_true, ite_true]
  refine dropLast_eq_take_of_length _ _ ?_
  simp only [List.length_append, List.length_map, List.length_zip,
    List.length_take, List.length_drop, List.length_singleton, h]
  omega

/-- C10 (witness): evaluation of the theorem at the odd-sized concrete input
`key = (0, 0)`, `count` of shape `(3,)` with data `0, 1, 2`. -/
theorem threefry_2x32_shape_and_odd_witness :
    (NdArray.mk [3] [0, 1, 2]).data.length = list_prod (NdArray.mk [3] [0, 1, 2]).shape ∧
    ((threefry_2x32 (0, 0) ⟨[3], [0, 1, 2]⟩).shape = (NdArray.mk [3] [0, 1, 2]).shape ∧
     (threefry_2x32 (0, 0) ⟨[3], [0, 1, 2]⟩).data.length = list_prod (NdArray.mk [3] [0, 1, 2]).shape ∧
     (list_prod (NdArray.mk [3] [0, 1, 2]).shape % 2 = 1 →
       (threefry_2x32 (0, 0) ⟨[3], [0, 1, 2]⟩).data =
         ((threefry_2x32 (0, 0) ⟨[list_prod (NdArray.mk [3] [0, 1, 2]).shape + 1],
            [0, 1, 2] ++ [0]⟩).data).take (list_prod (NdArray.mk [3] [0, 1, 2]).shape))) :=
  ⟨by decide, threefry_2x32_shape_and_odd (0, 0) ⟨[3], [0, 1, 2]⟩ (by decide)⟩

/-- C6: for every raw key and every positive `n`, `threefry_split key n` is an
array of shape `(n, 2)` holding exactly `2 n` words, and its flat data is the
`2 n` words obtained by hashing the counter words `0 … 2 n - 1` with
`threefry_2x32` keyed by `key`. -/
theorem threefry_split_spec (key : NdArray) (n : Nat) (_hn : 0 < n) :
    (threefry_split key n).shape = [n, 2] ∧
    (threefry_split key n).data.length = 2 * n ∧
    (threefry_split key n).data =
      (threefry_2x32 (key_pair key) ⟨[n * 2], iota (n * 2)⟩).data := by
  refine ⟨rfl, ?_, rfl⟩
  have hlen := threefry_2x32_data_length (key_pair key) ⟨[n * 2], iota (n * 2)⟩
    (by simp [iota, list_prod_singleton])
  simp only [list_prod_singleton] at hlen
  simpa [threefry_split, Nat.mul_comm] using hlen

/-- C6 (witness): evaluation of the split theorem at `key = (0, 0)`, `n = 2`. -/
theorem threefry_split_spec_witness :
    0 < 2 ∧
    ((threefry_split ⟨[2], [0, 0]⟩ 2).shape = [2, 2] ∧
     (threefry_split ⟨[2], [0, 0]⟩ 2).data.length = 2 * 2 ∧
     (threefry_split ⟨[2], [0, 0]⟩ 2).data =
       (threefry_2x32 (key_pair ⟨[2], [0, 0]⟩) ⟨[2 * 2], iota (2 * 2)⟩).data) :=
  ⟨by decide, threefry_split_spec ⟨[2], [0, 0]⟩ 2 (by decide)⟩

/-- C7: for every raw key and scalar `data`, the default fold-in equals
`threefry_2x32(key, threefry_seed(uint32(data)))` — `data` is re-seeded into a
fresh 2-word counter pair (and the seeding succeeds), which is then hashed
keyed by `key` — and a non-scalar `data` violates the scalar precondition
(the assert fails, modelled as `none`). -/
theorem threefry_fold_in_spec (key data : NdArray) :
    (data.shape = [] →
      threefry_seed ⟨[], data.data.map (fun v => v % two32)⟩ ≠ none ∧
      threefry_fold_in key data =
        (threefry_seed ⟨[], data.data.map (fun v => v % two32)⟩).map
          (fun ctr => threefry_2x32 (key_pair key) ctr)) ∧
    (data.shape ≠ [] → threefry_fold_in key data = none) := by
  constructor
  · intro h
    constructor
    · simp [threefry_seed]
    · simp [threefry_fold_in, _threefry_fold_in, h]
  · intro h
    simp [threefry_fold_in, h]

/-- C7 (witness): evaluation of the fold-in theorem at `key = (0, 0)` with the
scalar datum `7` and with a non-scalar datum of shape `(1,)`. -/
theorem threefry_fold_in_spec_witness :
    (threefry_seed ⟨[], List.map (fun v => v % two32) [7]⟩ ≠ none ∧
     threefry_fold_in ⟨[2], [0, 0]⟩ ⟨[], [7]⟩ =
       (threefry_seed ⟨[], List.map (fun v => v % two32) [7]⟩).map
         (fun ctr => threefry_2x32 (key_pair ⟨[2], [0, 0]⟩) ctr)) ∧
    threefry_fold_in ⟨[2], [0, 0]⟩ ⟨[1], [7]⟩ = none :=
  ⟨(threefry_fold_in_spec ⟨[2], [0, 0]⟩ ⟨[], [7]⟩).1 rfl,
   (threefry_fold_in_spec ⟨[2], [0, 0]⟩ ⟨[1], [7]⟩).2 (by decide)⟩

/-! ## `random_bits` for the threefry and rbg implementations -/

deriving instance DecidableEq for Except

/-- The constant `jnp.iinfo(np.uint32).max = 4294967295`, the per-call counter limit. -/
def u32_max : Nat := two32 - 1

/-- The flat `uint32` word sequence that `threefry_random_bits` generates
before reassembly (lines computing `bits` in the source): when `max_count`
needs at most one block, hash the counters `0 … max_count - 1` directly;
otherwise split the key into `nblocks + 1` subkeys, let each of the first
`nblocks` subkeys generate a full block of `u32_max` words, let the last
subkey generate the remaining words, and concatenate everything in order. -/
def threefry_random_words (key : NdArray) (max_count : Nat) : List Nat :=
  let nblocks := max_count / u32_max
  let rem := max_count % u32_max
  if nblocks = 0 then
    (threefry_2x32 (key_pair key) ⟨[rem], iota rem⟩).data
  else
    let keys := threefry_split key (nblocks + 1)
    let row := fun i => (keys.data.getD (2 * i) 0, keys.data.getD (2 * i + 1) 0)
    let blocks := (List.range nblocks).flatMap
      (fun i => (threefry_2x32 (row i) ⟨[u32_max], iota u32_max⟩).data)
    let last := (threefry_2x32 (row nblocks) ⟨[rem], iota rem⟩).data
    blocks ++ last

/-- Model of `threefry_random_bits(key, bit_width, shape)` from the source.  The key
must be a raw threefry key (`shape (2,)`, dtype `uint32` — dtype fixed by the
model); `bit_width` must be 8, 16, 32 or 64, otherwise a `TypeError` is
raised; then `max_count = ceil(bit_width * size / 32)` words are generated and
reassembled: 64-bit values combine the two halves of the word sequence as
`(high << 32) | low`, 8/16-bit values bit-slice each word low-bits-first,
32-bit values use the words directly. -/
def threefry_random_bits (key : NdArray) (bit_width : Nat) (shape : List Nat) :
    Except String NdArray :=
  if ¬(key.shape = [2]) then .error ("threefry_random_bits got invalid prng key.")
  else if ¬(bit_width = 8 ∨ bit_width = 16 ∨ bit_width = 32 ∨ bit_width = 64) then
    .error ("requires 8-, 16-, 32- or 64-bit field width.")
  else
    let size := list_prod shape
    let max_count := if bit_width * size % 32 > 0 then bit_width * size / 32 + 1
      else bit_width * size / 32
    let bits := threefry_random_words key max_count
    if bit_width = 64 then
      .ok ⟨shape, ((bits.take (bits.length / 2)).zip (bits.drop (bits.length / 2))).map
        (fun p => (p.1 <<< 32) ||| p.2)⟩
    else if bit_width = 8 ∨ bit_width = 16 then
      .ok ⟨shape, (bits.flatMap (fun w => (List.range (32 / bit_width)).map
        (fun j => (w >>> (j * bit_width)) &&& (2 ^ bit_width - 1)))).take size⟩
    else
      .ok ⟨shape, bits⟩

/-- Model of `_rbg_random_bits(key, bit_width, shape)` from the source, parameterized
by the external bulk generator `lax.rng_bit_generator` (an external
collaborator of this core, taken as an argument `gen` returning the pair
(new generator state, generated array)).  The Python guard
`not key.shape == (4,) and key.dtype == uint32` reduces, with the dtype fixed
to `uint32` by the model, to a shape test; an invalid `bit_width` raises a
`TypeError` before the generator is consulted. -/
def _rbg_random_bits (gen : NdArray → List Nat → Nat → NdArray × NdArray)
    (key : NdArray) (bit_width : Nat) (shape : List Nat) : Except String NdArray :=
  if ¬(key.shape = [4]) then .error ("_rbg_random_bits got invalid prng key.")
  else if ¬(bit_width = 8 ∨ bit_width = 16 ∨ bit_width = 32 ∨ bit_width = 64) then
    .error ("requires 8-, 16-, 32- or 64-bit field width.")
  else .ok (gen key shape bit_width).2

/-- C9: for every bit width outside `{8, 16, 32, 64}` and every valid key and
shape, `threefry_random_bits` raises the field-width `TypeError` (producing no
result), and so does `_rbg_random_bits` for every bulk generator. -/
theorem random_bits_bit_width_error (bw : Nat)
    (h8 : bw ≠ 8) (h16 : bw ≠ 16) (h32 : bw ≠ 32) (h64 : bw ≠ 64) :
    (∀ (key : NdArray) (shape : List Nat), key.shape = [2] →
      threefry_random_bits key bw shape =
        .error ("requires 8-, 16-, 32- or 64-bit field width.")) ∧
    (∀ (gen : NdArray → List Nat → Nat → NdArray × NdArray) (key : NdArray)
        (shape : List Nat), key.shape = [4] →
      _rbg_random_bits gen key bw shape =
        .error ("requires 8-, 16-, 32- or 64-bit field width.")) := by
  constructor
  · intro key shape hkey
    simp [threefry_random_bits, hkey, h8, h16, h32, h64]
  · intro gen key shape hkey
    simp [_rbg_random_bits, hkey, h8, h16, h32, h64]

/-- C9 (witness): evaluation of the bit-width error theorem at `bw = 12` with
a valid threefry key, a valid rbg key and a trivial bulk generator. -/
theorem random_bits_bit_width_error_witness :
    threefry_random_bits ⟨[2], [0, 0]⟩ 12 [3] =
      .error ("requires 8-, 16-, 32- or 64-bit field width.") ∧
    _rbg_random_bits (fun k _ _ => (k, k)) ⟨[4], [0, 0, 0, 0]⟩ 12 [3] =
      .error ("requires 8-, 16-, 32- or 64-bit field width.") :=
  ⟨(random_bits_bit_width_error 12 (by decide) (by decide) (by decide) (by decide)).1
      ⟨[2], [0, 0]⟩ [3] rfl,
   (random_bits_bit_width_error 12 (by decide) (by decide) (by decide) (by decide)).2
      (fun k _ _ => (k, k)) ⟨[4], [0, 0, 0, 0]⟩ [3] rfl⟩

theorem getElem?_eq_some_getD (l : List Nat) (i : Nat) (h : i < l.length) :
    l[i]? = some (l.getD i 0) := by
  simp [List.getElem?_eq_getElem h, List.getD, List.getElem?_eq_getElem]

theorem length_flatMap_const (f : Nat → List Nat) (L : Nat)
    (hf : ∀ i, (f i).length = L) (n : Nat) :
    ((List.range n).flatMap f).length = n * L := by
  induction n with
  | zero => simp
  | succ k ih =>
    rw [List.range_succ, List.flatMap_append]
    simp [ih, hf, Nat.succ_mul]

/-- The word sequence generated for `max_count` words has exactly `max_count`
words, in both the single-block and the multi-block regime. -/
theorem threefry_random_words_length (key : NdArray) (max_count : Nat) :
    (threefry_random_words key max_count).length = max_count := by
  have hds : ∀ (kp : Nat × Nat) (m : Nat),
      (threefry_2x32 kp ⟨[m], iota m⟩).data.length = m := by
    intro kp m
    have := threefry_2x32_data_length kp ⟨[m], iota m⟩ (by simp [iota, list_prod_singleton])
    simpa [list_prod_singleton] using this
  have hu : u32_max = 4294967295 := rfl
  simp only [threefry_random_words]
  rcases Nat.eq_zero_or_pos (max_count / u32_max) with h0 | hpos
  · rw [if_pos h0, hds]
    rw [hu] at h0 ⊢
    omega
  · rw [if_neg (by omega)]
    rw [List.length_append, length_flatMap_const _ u32_max (fun i => hds _ _), hds]
    rw [hu]
    omega

theorem zip_halves_getElem (l : List Nat) (n i : Nat) (f : Nat → Nat → Nat)
    (hl : l.length = 2 * n) (hi : i < n) :
    (((l.take n).zip (l.drop n)).map (fun p => f p.1 p.2))[i]? =
      some (f (l.getD i 0) (l.getD (n + i) 0)) := by
  have h1 : (l.take n)[i]? = some (l.getD i 0) := by
    rw [List.getElem?_take_of_lt hi]
    exact getElem?_eq_some_getD l i (by omega)
  have h2 : (l.drop n)[i]? = some (l.getD (n + i) 0) := by
    rw [List.getElem?_drop]
    exact getElem?_eq_some_getD l (n + i) (by omega)
  have hz : ((l.take n).zip (l.drop n))[i]? = some (l.getD i 0, l.getD (n + i) 0) := by
    rw [List.getElem?_zip_eq_some]
    exact ⟨h1, h2⟩
  rw [List.getElem?_map, hz]
  rfl

/-- C2 (amended): for bit width 64, the generated flat word sequence of
`2 * size` words is split into two halves, and output element `i` is
`(word_i << 32) | word_(size + i)` — the first half supplies the high words
and the second half the low words (not consecutive word pairs).  The result
shape is the requested shape. -/
theorem threefry_random_bits_64_halves (key : NdArray) (shape : List Nat) (i : Nat)
    (hkey : key.shape = [2]) (hi : i < list_prod shape) :
    (threefry_random_bits key 64 shape).map (fun out => out.data[i]?) =
      .ok (some
        (((threefry_random_words key (2 * list_prod shape)).getD i 0) <<< 32 |||
         (threefry_random_words key (2 * list_prod shape)).getD
           (list_prod shape + i) 0)) ∧
    (threefry_random_bits key 64 shape).map (fun out => out.shape) = .ok shape := by
  have hmc : (if 64 * list_prod shape % 32 > 0 then 64 * list_prod shape / 32 + 1
      else 64 * list_prod shape / 32) = 2 * list_prod shape := by
    rw [if_neg (by omega)]
    omega
  have hlen := threefry_random_words_length key (2 * list_prod shape)
  have hhalf : (threefry_random_words key (2 * list_prod shape)).length / 2 =
      list_prod shape := by
    rw [hlen]
    omega
  have hres : threefry_random_bits key 64 shape =
      .ok ⟨shape,
        (((threefry_random_words key (2 * list_prod shape)).take (list_prod shape)).zip
          ((threefry_random_words key (2 * list_prod shape)).drop (list_prod shape))).map
          (fun p => (p.1 <<< 32) ||| p.2)⟩ := by
    simp [threefry_random_bits, hkey, hmc, hhalf]
  constructor
  · rw [hres]
    simp only [Except.map]
    exact congrArg Except.ok
      (zip_halves_getElem _ _ _ (fun a b => a <<< 32 ||| b) hlen hi)
  · rw [hres]
    rfl

/-- C2 (witness): evaluation of the amended 64-bit composition theorem at
`key = (0, 0)`, `shape = (2,)`, `i = 1`. -/
theorem threefry_random_bits_64_halves_witness :
    (NdArray.mk [2] [0, 0]).shape = [2] ∧ 1 < list_prod [2] ∧
    ((threefry_random_bits ⟨[2], [0, 0]⟩ 64 [2]).map (fun out => out.data[1]?) =
      .ok (some
        (((threefry_random_words ⟨[2], [0, 0]⟩ (2 * list_prod [2])).getD 1 0) <<< 32 |||
         (threefry_random_words ⟨[2], [0, 0]⟩ (2 * list_prod [2])).getD
           (list_prod [2] + 1) 0)) ∧
     (threefry_random_bits ⟨[2], [0, 0]⟩ 64 [2]).map (fun out => out.shape) = .ok [2]) :=
  ⟨rfl, by decide,
   threefry_random_bits_64_halves ⟨[2], [0, 0]⟩ [2] 1 rfl (by decide)⟩

/-- C2 (counterexample): the claimed composition from consecutive word pairs —
output element `i` equal to `(word_(2 i) << 32) | word_(2 i + 1)` — fails at
the concrete input `key = (0, 0)`, `shape = (2,)`, element `i = 1`: the code
combines `word_1` (first half) with `word_3` (second half) there, and
`word_2 ≠ word_1`. -/
theorem threefry_random_bits_64_pairs_claim_false :
    (threefry_random_bits ⟨[2], [0, 0]⟩ 64 [2]).map (fun out => out.data[1]?) ≠
      .ok (some
        (((threefry_random_words ⟨[2], [0, 0]⟩ 4).getD 2 0) <<< 32 |||
         (threefry_random_words ⟨[2], [0, 0]⟩ 4).getD 3 0)) := by
  decide

/-! ## PRNGImpl and the key-array wrap/unwrap primitives -/

/-- Model of `PRNGImpl` from the source: a `NamedTuple` of the key shape, the four
operation `Callable` fields and the display tag.  Python compares `Callable`
fields by object identity; the model represents each distinct operation
function by an opaque numeric handle.  The class overrides `__hash__` (hash of
the tag only) but does not override `__eq__`, which therefore remains the
NamedTuple's structural elementwise tuple equality. -/
structure PRNGImpl where
  key_shape : List Nat
  seed : Nat
  split : Nat
  random_bits : Nat
  fold_in : Nat
  tag : String
deriving DecidableEq, Repr

/-- The `==` that `PRNGImpl` values actually have (inherited NamedTuple tuple
equality): elementwise equality of all six fields, operations by handle
identity. -/
def prngimpl_eq (a b : PRNGImpl) : Bool :=
  a.key_shape == b.key_shape && a.seed == b.seed && a.split == b.split &&
    a.random_bits == b.random_bits && a.fold_in == b.fold_in && a.tag == b.tag

/-- Model of `PRNGImpl.__hash__` from the source: the hash of the tag alone. -/
def prngimpl_hash (a : PRNGImpl) : UInt64 := a.tag.hash

/-- The stock `threefry_prng_impl`: key shape `(2,)`, tag `fry`; handles 0–3 stand for
`threefry_seed`, `threefry_split`, `threefry_random_bits`, `threefry_fold_in`. -/
def threefry_prng_impl : PRNGImpl := ⟨[2], 0, 1, 2, 3, "fry"⟩

/-- The stock `rbg_prng_impl`: key shape `(4,)`, tag `rbg`; handles 4–7 stand for
`_rbg_seed`, `_rbg_split`, `_rbg_random_bits`, `_rbg_fold_in`. -/
def rbg_prng_impl : PRNGImpl := ⟨[4], 4, 5, 6, 7, "rbg"⟩

/-- C5 (counterexample): two `PRNGImpl` values with the identical tag `fry`
but a different `seed` operation handle compare unequal under the actual
`==`, refuting equality-by-tag (which would make them equal). -/
theorem prngimpl_eq_by_tag_claim_false :
    prngimpl_eq ⟨[2], 0, 1, 2, 3, "fry"⟩ ⟨[2], 9, 1, 2, 3, "fry"⟩ = false ∧
    (PRNGImpl.mk [2] 0 1 2 3 ("fry")).tag = (PRNGImpl.mk [2] 9 1 2 3 ("fry")).tag := by
  decide

/-- C5 (amended): `PRNGImpl` equality is the inherited structural tuple
equality over all six fields (operations compared by identity), not equality
of tags alone; only hashing is by tag.  Consequently equal values have equal
tags (and equal hashes), and differently-tagged values always compare
unequal, but a shared tag does not imply equality. -/
theorem prngimpl_eq_structural (a b : PRNGImpl) :
    (prngimpl_eq a b = true ↔
      a.key_shape = b.key_shape ∧ a.seed = b.seed ∧ a.split = b.split ∧
        a.random_bits = b.random_bits ∧ a.fold_in = b.fold_in ∧ a.tag = b.tag) ∧
    (prngimpl_eq a b = true → prngimpl_hash a = prngimpl_hash b) ∧
    (a.tag ≠ b.tag → prngimpl_eq a b = false) := by
  have h : prngimpl_eq a b = true ↔
      a.key_shape = b.key_shape ∧ a.seed = b.seed ∧ a.split = b.split ∧
        a.random_bits = b.random_bits ∧ a.fold_in = b.fold_in ∧ a.tag = b.tag := by
    simp [prngimpl_eq, Bool.and_eq_true, beq_iff_eq, and_assoc]
  refine ⟨h, ?_, ?_⟩
  · intro he
    rw [prngimpl_hash, prngimpl_hash, (h.mp he).2.2.2.2.2]
  · intro hne
    cases hq : prngimpl_eq a b with
    | false => rfl
    | true => exact absurd (h.mp hq).2.2.2.2.2 hne

/-- C5 (witness): evaluation of the structural-equality theorem at the two
differently-tagged stock implementations and at two same-tag variants. -/
theorem prngimpl_eq_structural_witness :
    prngimpl_eq threefry_prng_impl rbg_prng_impl = false ∧
    prngimpl_hash ⟨[2], 0, 1, 2, 3, "fry"⟩ = prngimpl_hash ⟨[2], 0, 1, 2, 3, "fry"⟩ :=
  ⟨(prngimpl_eq_structural threefry_prng_impl rbg_prng_impl).2.2 (by decide),
   (prngimpl_eq_structural ⟨[2], 0, 1, 2, 3, "fry"⟩ ⟨[2], 0, 1, 2, 3, "fry"⟩).2.1 (by decide)⟩

/-- The Python slice `shape[-n:]` on a shape tuple: the whole tuple when `n = 0`
(since `t[-0:] = t[0:]`), otherwise the last `n` entries (clamped to the
whole tuple when `n` exceeds the rank, as in Python). -/
def py_suffix (l : List Nat) (n : Nat) : List Nat :=
  if n = 0 then l else l.drop (l.length - n)

/-- Model of `_check_prng_key_data(impl, key_data)` from the source: the key data must
have rank at least 1 and its trailing `len(impl.key_shape)` dimensions must
equal `impl.key_shape` (the attribute and uint32-dtype checks are fixed by
the `NdArray` model). -/
def _check_prng_key_data (impl : PRNGImpl) (key_data : NdArray) : Bool :=
  decide (1 ≤ key_data.shape.length) &&
    (py_suffix key_data.shape impl.key_shape.length == impl.key_shape)

/-- Model of `PRNGKeyArray` from the source: an implementation together with the raw
`uint32` backing array `_base_array`. -/
structure PRNGKeyArray where
  impl : PRNGImpl
  base_array : NdArray
deriving DecidableEq, Repr

/-- Model of `random_wrap(base_arr, impl)` from the source: validate the key-data
invariant, then wrap the raw array unchanged (`random_wrap_impl` builds
`PRNGKeyArray(impl, base_arr)`); a violated invariant raises `TypeError`. -/
def random_wrap (base_arr : NdArray) (impl : PRNGImpl) : Option PRNGKeyArray :=
  if _check_prng_key_data impl base_arr then some ⟨impl, base_arr⟩ else none

/-- Model of `random_unwrap(keys)` from the source (`random_unwrap_impl`): return the
raw backing array unchanged. -/
def random_unwrap (keys : PRNGKeyArray) : NdArray := keys.base_array

/-- C8: for every implementation and every raw array of rank at least 1 whose
trailing dimensions equal the implementation's key shape, unwrapping a
wrapped key returns the raw array unchanged. -/
theorem random_wrap_unwrap_roundtrip (impl : PRNGImpl) (raw : NdArray)
    (hrank : 1 ≤ raw.shape.length)
    (htrail : py_suffix raw.shape impl.key_shape.length = impl.key_shape) :
    (random_wrap raw impl).map random_unwrap = some raw := by
  have hc : _check_prng_key_data impl raw = true := by
    simp [_check_prng_key_data, hrank, htrail]
  simp [random_wrap, hc, random_unwrap]

/-- C8 (witness): evaluation of the round trip at the threefry implementation
and the raw key `[5, 6]` of shape `(1, 2)`. -/
theorem random_wrap_unwrap_roundtrip_witness :
    (random_wrap ⟨[1, 2], [5, 6]⟩ threefry_prng_impl).map random_unwrap =
      some ⟨[1, 2], [5, 6]⟩ :=
  random_wrap_unwrap_roundtrip threefry_prng_impl ⟨[1, 2], [5, 6]⟩ (by decide) (by decide)

/-! ## Vectorization layer: `vmap` combinators on nested arrays -/

/-- A (possibly nested) array value as seen by `jax.vmap`: either a scalar
element or a node holding the slices along the leading axis. -/
inductive Tensor (α : Type) where
  | scalar : α → Tensor α
  | node : List (Tensor α) → Tensor α

/-- Model of `jax.vmap(f)` for a unary `f`: apply `f` independently to every slice
along the leading axis; applying the vectorized function to a scalar (no
mappable axis) is an error. -/
def vmap_unary (f : Tensor α → Option (Tensor β)) : Tensor α → Option (Tensor β)
  | Tensor.node xs => (xs.mapM f).map Tensor.node
  | Tensor.scalar _ => none

/-- Model of `iterated_vmap_unary(n, f)` from the source: `n`-fold application of
`jax.vmap`. -/
def iterated_vmap_unary : Nat → (Tensor α → Option (Tensor β)) → Tensor α → Option (Tensor β)
  | 0, f => f
  | n + 1, f => vmap_unary (iterated_vmap_unary n f)

/-- Model of `jax.vmap(f, out_axes=0)` for a binary `f` with both inputs mapped along
their leading axes, which must exist and agree in size. -/
def vmap_binary (f : Tensor α → Tensor β → Option (Tensor γ)) :
    Tensor α → Tensor β → Option (Tensor γ)
  | Tensor.node xs, Tensor.node ys =>
    if xs.length = ys.length then
      ((xs.zip ys).mapM (fun p => f p.1 p.2)).map Tensor.node
    else none
  | _, _ => none

/-- Model of `squeeze_vmap(f, left)` from the source: squeeze the size-1 leading axis
of the indicated operand and vectorize `f` over the other operand's leading
axis with the squeezed operand held fixed (`in_axes` `(None, 0)` or
`(0, None)`). -/
def squeeze_vmap (f : Tensor α → Tensor β → Option (Tensor γ)) (left : Bool) :
    Tensor α → Tensor β → Option (Tensor γ) :=
  fun x y =>
    if left then
      match x, y with
      | Tensor.node [x0], Tensor.node ys => (ys.mapM (fun yi => f x0 yi)).map Tensor.node
      | _, _ => none
    else
      match x, y with
      | Tensor.node xs, Tensor.node [y0] => (xs.mapM (fun xi => f xi y0)).map Tensor.node
      | _, _ => none

/-- Model of `iterated_vmap_binary_bcast(shape1, shape2, f)` from the source:
when both shapes have rank 0, return `f`; when exactly one has rank 0, lift
the whole operation with the rank-0 operand fixed under `iterated_vmap_unary`
for the other operand's rank; otherwise the ranks are *asserted* equal
(`assert len(shape1) == len(shape2)`, modelled as `none` on failure) and the
axes are processed from the trailing end inward — lock-step `vmap` for
equal-size axes, `squeeze_vmap` when one size is 1, and an assertion failure
(`none`) otherwise. -/
def iterated_vmap_binary_bcast (shape1 shape2 : List Nat)
    (f : Tensor α → Tensor β → Option (Tensor γ)) :
    Option (Tensor α → Tensor β → Option (Tensor γ)) :=
  if shape1.length = 0 ∧ shape2.length = 0 then some f
  else if shape1.length = 0 then
    some (fun x y => iterated_vmap_unary shape2.length (fun yy => f x yy) y)
  else if shape2.length = 0 then
    some (fun x y => iterated_vmap_unary shape1.length (fun xx => f xx y) x)
  else if shape1.length ≠ shape2.length then none
  else ((shape1.zip shape2).reverse).foldlM
    (fun g p =>
      if p.1 = p.2 then some (vmap_binary g)
      else if p.1 = 1 ∨ p.2 = 1 then some (squeeze_vmap g (p.1 == 1))
      else none) f

/-- Elementwise addition on scalar tensors, a concrete scalar binary
operation for evaluating the combinator. -/
def scalar_add : Tensor Nat → Tensor Nat → Option (Tensor Nat) :=
  fun x y =>
    match x, y with
    | Tensor.scalar a, Tensor.scalar b => some (Tensor.scalar (a + b))
    | _, _ => none

/-- C4 (counterexample): for the rank-2 shape `(2, 3)` against the rank-1
shape `(3,)` — a rank mismatch whose lower-rank operand has nonzero rank —
`iterated_vmap_binary_bcast` fails its rank-equality assertion (`none`)
instead of producing a broadcast operation. -/
theorem iterated_vmap_binary_bcast_rank_claim_false :
    iterated_vmap_binary_bcast [2, 3] [3] scalar_add = none := by
  rfl

/-- C4 (amended): `iterated_vmap_binary_bcast` handles differing ranks only
when the lower-rank operand has rank 0: for nonzero differing ranks it fails
the rank-equality assertion, while a rank-0 operand — in either position —
yields the whole operation lifted, with the rank-0 operand held fixed, under
outer vectorization for the other operand's rank, and each added `vmap` layer
applies the lifted operation independently along one more leading axis. -/
theorem iterated_vmap_binary_bcast_rank (α β γ : Type) :
    (∀ (s1 s2 : List Nat) (f : Tensor α → Tensor β → Option (Tensor γ)),
      0 < s1.length → 0 < s2.length → s1.length ≠ s2.length →
      iterated_vmap_binary_bcast s1 s2 f = none) ∧
    (∀ (s2 : List Nat) (f : Tensor α → Tensor β → Option (Tensor γ)),
      0 < s2.length →
      iterated_vmap_binary_bcast [] s2 f =
        some (fun x y => iterated_vmap_unary s2.length (fun yy => f x yy) y)) ∧
    (∀ (s1 : List Nat) (f : Tensor α → Tensor β → Option (Tensor γ)),
      0 < s1.length →
      iterated_vmap_binary_bcast s1 [] f =
        some (fun x y => iterated_vmap_unary s1.length (fun xx => f xx y) x)) ∧
    (∀ (n : Nat) (g : Tensor β → Option (Tensor γ)) (ys : List (Tensor β)),
      iterated_vmap_unary (n + 1) g (Tensor.node ys) =
        (ys.mapM (iterated_vmap_unary n g)).map Tensor.node) := by
  refine ⟨?_, ?_, ?_, ?_⟩
  · intro s1 s2 f h1 h2 hne
    unfold iterated_vmap_binary_bcast
    rw [if_neg (by omega), if_neg (by omega), if_neg (by omega), if_pos hne]
  · intro s2 f h2
    unfold iterated_vmap_binary_bcast
    rw [if_neg (fun hc => absurd hc.2 (by omega)),
      if_pos (show ([] : List Nat).length = 0 from rfl)]
  · intro s1 f h1
    unfold iterated_vmap_binary_bcast
    rw [if_neg (fun hc => absurd hc.1 (by omega)), if_neg (by omega),
      if_pos (show ([] : List Nat).length = 0 from rfl)]
  · intro n g ys
    rfl

/-- C4 (witness): evaluation of the rank-handling theorem at the concrete
shapes `(5,)` vs `(2, 3)` (assertion failure), `()` vs `(2,)` (rank-0 first
operand lifting), `(3,)` vs `()` (rank-0 second operand lifting), and one
peeled `vmap` layer. -/
theorem iterated_vmap_binary_bcast_rank_witness :
    iterated_vmap_binary_bcast [5] [2, 3] scalar_add = none ∧
    iterated_vmap_binary_bcast [] [2] scalar_add =
      some (fun x y => iterated_vmap_unary ([2] : List Nat).length
        (fun yy => scalar_add x yy) y) ∧
    iterated_vmap_binary_bcast [3] [] scalar_add =
      some (fun x y => iterated_vmap_unary ([3] : List Nat).length
        (fun xx => scalar_add xx y) x) ∧
    iterated_vmap_unary 1 (scalar_add (Tensor.scalar 1)) (Tensor.node [Tensor.scalar 5]) =
      (([Tensor.scalar 5] : List (Tensor Nat)).mapM
        (iterated_vmap_unary 0 (scalar_add (Tensor.scalar 1)))).map Tensor.node :=
  ⟨(iterated_vmap_binary_bcast_rank Nat Nat Nat).1 [5] [2, 3] scalar_add
      (by decide) (by decide) (by decide),
   (iterated_vmap_binary_bcast_rank Nat Nat Nat).2.1 [2] scalar_add (by decide),
   (iterated_vmap_binary_bcast_rank Nat Nat Nat).2.2.1 [3] scalar_add (by decide),
   (iterated_vmap_binary_bcast_rank Nat Nat Nat).2.2.2 0
      (scalar_add (Tensor.scalar 1)) [Tensor.scalar 5]⟩
